import Mathlib

/-!
Verification development for the probabilistic reconciliation samplers of
hierarchicalforecast (src/hierarchicalforecast/probabilistic_methods.py):
the classes Normality, Bootstrap and PERMBU.

Two complementary shallow embeddings are used, both over exact rationals
(floating point values are modelled as rationals, pseudorandom draws as
explicit stream parameters):

* a dependently typed embedding (namespaces NormalityM, BootstrapM) of the
  value semantics of the sample computations, used for the linear-algebra
  facts (coherence of sample paths, prediction level and quantile formulas);
* an untyped embedding (UArr and friends, namespaces Normality, Bootstrap,
  PERMBU) in which arrays carry explicit dimensions and fallible numpy
  operations return Except String, used for shape and error-path claims and
  for the full PERMBU.get_samples pipeline.

utils.py (cov2corr, is_strictly_hierarchical) is imported by the source but
is not among the source files; those two functions are modelled from the
spec, as marked on their definitions.
-/

set_option autoImplicit false

namespace HFProb

open Matrix

/-- Row index of the summing matrix, split into aggregate rows (Sum.inl)
and bottom rows (Sum.inr). -/
abbrev BaseIdx (na nb : ℕ) := Sum (Fin na) (Fin nb)

/-- A summing matrix is proper when its bottom rows form the identity
(spec glossary: rows of S restricted to bottom columns form the identity). -/
def ProperS {na nb : ℕ} (S : Matrix (BaseIdx na nb) (Fin nb) ℚ) : Prop :=
  ∀ j j' : Fin nb, S (Sum.inr j) j' = if j' = j then 1 else 0

/-- Coherence of one sample path column: the aggregate rows equal S applied
to the bottom rows of that same column. -/
def Coherent {na nb : ℕ} (S : Matrix (BaseIdx na nb) (Fin nb) ℚ)
    (y : BaseIdx na nb → ℚ) : Prop :=
  ∀ a : Fin na, y (Sum.inl a) = ∑ j, S (Sum.inl a) j * y (Sum.inr j)

lemma coherent_of_mem_range {na nb : ℕ} {S : Matrix (BaseIdx na nb) (Fin nb) ℚ}
    (hS : ProperS S) {y : BaseIdx na nb → ℚ}
    (hy : y ∈ LinearMap.range S.mulVecLin) : Coherent S y := by
  obtain ⟨w, rfl⟩ := hy
  intro a
  have hbot : ∀ j : Fin nb, S.mulVecLin w (Sum.inr j) = w j := by
    intro j
    simp only [Matrix.mulVecLin_apply, Matrix.mulVec, Matrix.dotProduct]
    rw [Finset.sum_congr rfl (fun j' _ => by rw [hS j j'])]
    simp [ite_mul]
  simp only [hbot]
  simp [Matrix.mulVecLin_apply, Matrix.mulVec, Matrix.dotProduct]

lemma range_mulVecLin_le_of_factor {I J : Type} [Fintype I] [Fintype J]
    [DecidableEq I] [DecidableEq J]
    (G : Matrix I I ℚ) (B : Matrix I J ℚ) (C : Matrix J I ℚ)
    (h : G * Gᵀ = B * C) :
    LinearMap.range G.mulVecLin ≤ LinearMap.range B.mulVecLin := by
  have h1 : LinearMap.range (G * Gᵀ).mulVecLin ≤ LinearMap.range G.mulVecLin := by
    rw [Matrix.mulVecLin_mul]
    exact LinearMap.range_comp_le_range _ _
  have h2 : (G * Gᵀ).rank = G.rank := Matrix.rank_self_mul_transpose G
  have h3 : LinearMap.range (G * Gᵀ).mulVecLin = LinearMap.range G.mulVecLin := by
    refine Submodule.eq_of_le_of_finrank_le h1 ?_
    simp only [Matrix.rank] at h2
    exact le_of_eq h2.symm
  have h4 : LinearMap.range (B * C).mulVecLin ≤ LinearMap.range B.mulVecLin := by
    rw [Matrix.mulVecLin_mul]
    exact LinearMap.range_comp_le_range _ _
  rw [← h3, h]
  exact h4

/-- Modelled from the spec: cov2corr lives in utils.py, which is not among the
source files; per the spec it converts W to a correlation matrix by dividing
by the outer product of the standard deviations; sqrtFn models np.sqrt. -/
def cov2corr {I : Type} (sqrtFn : ℚ → ℚ) (W : Matrix I I ℚ) : Matrix I I ℚ :=
  fun i j => W i j / (sqrtFn (W i i) * sqrtFn (W j j))

namespace NormalityM

variable {na nb H : ℕ}

/-- Line 53: SP = S @ P. -/
def SPm (S : Matrix (BaseIdx na nb) (Fin nb) ℚ)
    (P : Matrix (Fin nb) (BaseIdx na nb) ℚ) :
    Matrix (BaseIdx na nb) (BaseIdx na nb) ℚ := S * P

/-- Line 61: per-step base covariance, diag(sigma) @ R1 @ diag(sigma).T with
R1 = cov2corr(W) and sigma the horizon-t column of sigmah. -/
def Wh (sqrtFn : ℚ → ℚ) (W : Matrix (BaseIdx na nb) (BaseIdx na nb) ℚ)
    (sigmah : Matrix (BaseIdx na nb) (Fin H) ℚ) (t : Fin H) :
    Matrix (BaseIdx na nb) (BaseIdx na nb) ℚ :=
  Matrix.diagonal (fun i => sigmah i t) * cov2corr sqrtFn W *
    (Matrix.diagonal (fun i => sigmah i t))ᵀ

/-- Line 64: reconciled covariance SP @ Wh[t] @ SP.T for horizon step t. -/
def covRec (sqrtFn : ℚ → ℚ) (W : Matrix (BaseIdx na nb) (BaseIdx na nb) ℚ)
    (sigmah : Matrix (BaseIdx na nb) (Fin H) ℚ)
    (S : Matrix (BaseIdx na nb) (Fin nb) ℚ)
    (P : Matrix (Fin nb) (BaseIdx na nb) ℚ) (t : Fin H) :
    Matrix (BaseIdx na nb) (BaseIdx na nb) ℚ :=
  SPm S P * Wh sqrtFn W sigmah t * (SPm S P)ᵀ

/-- Line 65: sigmah_rec, the square roots of the diagonals of the reconciled
covariances, as a (series, horizon) array. -/
def sigmahRec (sqrtFn : ℚ → ℚ) (W : Matrix (BaseIdx na nb) (BaseIdx na nb) ℚ)
    (sigmah : Matrix (BaseIdx na nb) (Fin H) ℚ)
    (S : Matrix (BaseIdx na nb) (Fin nb) ℚ)
    (P : Matrix (Fin nb) (BaseIdx na nb) ℚ) :
    BaseIdx na nb → Fin H → ℚ :=
  fun i t => sqrtFn (covRec sqrtFn W sigmah S P t i i)

/-- Lines 78 to 88. state.multivariate_normal(mean, cov, size) is modelled as
mean + F z for the factor F that numpy derives from the svd of cov (so that
F * Fᵀ = cov, which is hypothesis hG of the coherence theorem); z seed k is
the standard normal vector consumed at position k of the stream of the
generator constructed from seed on line 78, inside the call. The call at
horizon step t draws sample s at stream position t * m + s, and the final
transpose (1, 2, 0) makes the result (series, horizon, sample) indexed. -/
def getSamples (S : Matrix (BaseIdx na nb) (Fin nb) ℚ)
    (P : Matrix (Fin nb) (BaseIdx na nb) ℚ)
    (yhat : BaseIdx na nb → Fin H → ℚ)
    (G : Fin H → Matrix (BaseIdx na nb) (BaseIdx na nb) ℚ)
    (z : ℕ → ℕ → BaseIdx na nb → ℚ) (seed m : ℕ) :
    BaseIdx na nb → Fin H → ℕ → ℚ :=
  fun i t s =>
    ((SPm S P).mulVec (fun i2 => yhat i2 t) + (G t).mulVec (z seed (t.val * m + s))) i

/-- Two successive get_samples calls on one instance, as the code executes
them: line 78 constructs RandomState(self.seed) inside each call, so both
calls read the stream of seed from position 0. -/
def twoCalls (S : Matrix (BaseIdx na nb) (Fin nb) ℚ)
    (P : Matrix (Fin nb) (BaseIdx na nb) ℚ)
    (yhat : BaseIdx na nb → Fin H → ℚ)
    (G : Fin H → Matrix (BaseIdx na nb) (BaseIdx na nb) ℚ)
    (z : ℕ → ℕ → BaseIdx na nb → ℚ) (seed m1 m2 : ℕ) :
    (BaseIdx na nb → Fin H → ℕ → ℚ) × (BaseIdx na nb → Fin H → ℕ → ℚ) :=
  (getSamples S P yhat G z seed m1, getSamples S P yhat G z seed m2)

/-- Modelled from the spec: the sampler described by spec section 4.1 owns a
single generator seeded once at construction whose state advances across
calls; the second call consumes the stream where the first one stopped,
after the H * m1 vector draws of the first call. -/
def twoCallsSpecModel (S : Matrix (BaseIdx na nb) (Fin nb) ℚ)
    (P : Matrix (Fin nb) (BaseIdx na nb) ℚ)
    (yhat : BaseIdx na nb → Fin H → ℚ)
    (G : Fin H → Matrix (BaseIdx na nb) (BaseIdx na nb) ℚ)
    (z : ℕ → ℕ → BaseIdx na nb → ℚ) (seed m1 m2 : ℕ) :
    (BaseIdx na nb → Fin H → ℕ → ℚ) × (BaseIdx na nb → Fin H → ℕ → ℚ) :=
  (getSamples S P yhat G z seed m1,
   fun i t s =>
     ((SPm S P).mulVec (fun i2 => yhat i2 t) +
       (G t).mulVec (z seed (H * m1 + t.val * m2 + s))) i)

end NormalityM

/-- Lines 170 to 186, value semantics: sample path s is y_hat plus the
residual block starting at the drawn index (sIdx s models the outputs of
state.choice on line 177), each horizon column reconciled by SP (lines
179 to 181); after the final transpose the result is (series, horizon,
sample) indexed. resid is the residual matrix left after dropping columns
containing missing values. -/
def BootstrapM.samples {na nb H : ℕ} (S : Matrix (BaseIdx na nb) (Fin nb) ℚ)
    (P : Matrix (Fin nb) (BaseIdx na nb) ℚ)
    (yhat : BaseIdx na nb → Fin H → ℚ)
    (resid : BaseIdx na nb → ℕ → ℚ) (sIdx : ℕ → ℕ) :
    BaseIdx na nb → Fin H → ℕ → ℚ :=
  fun i t s => (S * P).mulVec (fun i2 => yhat i2 t + resid i2 (sIdx s + t.val)) i

/- Result mapping semantics for get_prediction_levels (lines 90 to 98): the
python dict res with its string keys is modelled by an explicit key type
(the f-string keys lo-lv and hi-lv become the constructors lo and hi). -/

inductive ResKey where
  | mean
  | sigmah
  | lo (lv : ℚ)
  | hi (lv : ℚ)
  deriving DecidableEq

/-- The result mapping: keys to optional (series, horizon) arrays. -/
def ResMap (na nb H : ℕ) := ResKey → Option (BaseIdx na nb → Fin H → ℚ)

/-- Dictionary update res[k] = v. -/
def rset {na nb H : ℕ} (r : ResMap na nb H) (k : ResKey)
    (v : BaseIdx na nb → Fin H → ℚ) : ResMap na nb H :=
  fun k2 => if k2 = k then some v else r k2

namespace NormalityM

variable {na nb H : ℕ}

/-- One iteration of the loop on lines 95 to 97: writes lo-lv then hi-lv,
reading res[mean]; a missing mean key is a KeyError. -/
def gplStep (sigv : BaseIdx na nb → Fin H → ℚ) (ppf : ℚ → ℚ)
    (r : ResMap na nb H) (lv : ℚ) : Except String (ResMap na nb H) :=
  match r ResKey.mean with
  | none => Except.error "KeyError: mean"
  | some mn => Except.ok (rset (rset r (ResKey.lo lv)
      (fun i t => mn i t - ppf (1/2 + lv/200) * sigv i t))
      (ResKey.hi lv) (fun i t => mn i t + ppf (1/2 + lv/200) * sigv i t))

/-- The loop of lines 95 to 97, one gplStep per requested level, stopping at
the first error. -/
def gplFold (sigv : BaseIdx na nb → Fin H → ℚ) (ppf : ℚ → ℚ) :
    List ℚ → ResMap na nb H → Except String (ResMap na nb H)
  | [], r => Except.ok r
  | lv :: rest, r =>
    match gplStep sigv ppf r lv with
    | Except.error e => Except.error e
    | Except.ok r2 => gplFold sigv ppf rest r2

/-- Lines 90 to 98: get_prediction_levels. Attaches sigmah_rec under the key
sigmah (line 92), then for each requested level lv writes
lo-lv = mean - z * sigmah_rec and hi-lv = mean + z * sigmah_rec with
z = norm.ppf(0.5 + lv / 200) (lines 94 to 97); ppf models norm.ppf. -/
def getPredictionLevels (sigv : BaseIdx na nb → Fin H → ℚ) (ppf : ℚ → ℚ)
    (res : ResMap na nb H) (level : List ℚ) : Except String (ResMap na nb H) :=
  gplFold sigv ppf level (rset res ResKey.sigmah sigv)

lemma gplStep_ok (sigv : BaseIdx na nb → Fin H → ℚ) (ppf : ℚ → ℚ)
    (r : ResMap na nb H) (lv : ℚ) (M : BaseIdx na nb → Fin H → ℚ)
    (hM : r ResKey.mean = some M) :
    gplStep sigv ppf r lv = Except.ok (rset (rset r (ResKey.lo lv)
      (fun i t => M i t - ppf (1/2 + lv/200) * sigv i t))
      (ResKey.hi lv) (fun i t => M i t + ppf (1/2 + lv/200) * sigv i t)) := by
  unfold gplStep
  rw [hM]

lemma gplFold_spec (sigv : BaseIdx na nb → Fin H → ℚ) (ppf : ℚ → ℚ)
    (M : BaseIdx na nb → Fin H → ℚ) :
    ∀ (l : List ℚ) (r : ResMap na nb H), r ResKey.mean = some M →
      ∃ r2, gplFold sigv ppf l r = Except.ok r2 ∧
        (∀ k : ResKey, (∀ lv ∈ l, k ≠ ResKey.lo lv ∧ k ≠ ResKey.hi lv) → r2 k = r k) ∧
        (∀ lv ∈ l,
          r2 (ResKey.lo lv) = some (fun i t => M i t - ppf (1/2 + lv/200) * sigv i t) ∧
          r2 (ResKey.hi lv) = some (fun i t => M i t + ppf (1/2 + lv/200) * sigv i t)) := by
  intro l
  induction l with
  | nil =>
    intro r hM
    exact ⟨r, rfl, fun k _ => rfl, by simp⟩
  | cons a tl ih =>
    intro r hM
    have hr1mean : (rset (rset r (ResKey.lo a)
        (fun i t => M i t - ppf (1/2 + a/200) * sigv i t)) (ResKey.hi a)
        (fun i t => M i t + ppf (1/2 + a/200) * sigv i t)) ResKey.mean = some M := by
      simp [rset, hM]
    obtain ⟨r2, heq, hpres, hmem⟩ := ih _ hr1mean
    refine ⟨r2, ?_, ?_, ?_⟩
    · show gplFold sigv ppf (a :: tl) r = Except.ok r2
      unfold gplFold
      rw [gplStep_ok sigv ppf r a M hM]
      exact heq
    · intro k hk
      have h1 : r2 k = _ := hpres k (fun lv hlv => hk lv (List.mem_cons_of_mem a hlv))
      have hka := hk a (List.mem_cons_self a tl)
      rw [h1]
      simp [rset, hka.1, hka.2]
    · intro lv hlv
      rcases List.mem_cons.mp hlv with h | h
      · subst h
        by_cases htl : lv ∈ tl
        · exact hmem lv htl
        · have hpre : ∀ k0 : ResKey, (k0 = ResKey.lo lv ∨ k0 = ResKey.hi lv) →
              (∀ lv2 ∈ tl, k0 ≠ ResKey.lo lv2 ∧ k0 ≠ ResKey.hi lv2) := by
            intro k0 hk0 lv2 hlv2
            rcases hk0 with h0 | h0 <;> subst h0 <;>
              refine ⟨fun hcon => ?_, fun hcon => ?_⟩
            · injection hcon with h3
              exact htl (h3 ▸ hlv2)
            · exact ResKey.noConfusion hcon
            · exact ResKey.noConfusion hcon
            · injection hcon with h3
              exact htl (h3 ▸ hlv2)
          constructor
          · rw [hpres (ResKey.lo lv) (hpre _ (Or.inl rfl))]
            simp [rset]
          · rw [hpres (ResKey.hi lv) (hpre _ (Or.inr rfl))]
            simp [rset]
      · exact hmem lv h

end NormalityM

/- Concrete instance used by witnesses and counterexamples: the literal
end-to-end scenario of spec section 8 restricted to one aggregate and one
bottom series: S = [[1],[1]], P selects the bottom row, W = I, sigmah = 1,
y_hat = 0, horizon 1. -/

def exS : Matrix (BaseIdx 1 1) (Fin 1) ℚ := fun _ _ => 1

def exP : Matrix (Fin 1) (BaseIdx 1 1) ℚ :=
  fun _ i => match i with
  | Sum.inl _ => 0
  | Sum.inr _ => 1

def exW : Matrix (BaseIdx 1 1) (BaseIdx 1 1) ℚ := fun i j => if i = j then 1 else 0

def exSig : Matrix (BaseIdx 1 1) (Fin 1) ℚ := fun _ _ => 1

def exYhat : BaseIdx 1 1 → Fin 1 → ℚ := fun _ _ => 0

/-- A factor of the reconciled covariance (the all-ones 2 by 2 matrix):
exG * exGᵀ = covRec. -/
def exG : Fin 1 → Matrix (BaseIdx 1 1) (BaseIdx 1 1) ℚ :=
  fun _ _ j => match j with
  | Sum.inl _ => 1
  | Sum.inr _ => 0

/-- A draw stream whose value at stream position k is k, to distinguish
stream positions. -/
def exZpos : ℕ → ℕ → BaseIdx 1 1 → ℚ := fun _ k _ => (k : ℚ)

/-- C6: Normality.get_prediction_levels writes, for every requested level lv,
lo-lv = mean - z * sigmah_rec and hi-lv = mean + z * sigmah_rec with
z = ppf(0.5 + lv/200), attaches sigmah_rec under the sigmah key, and the
resulting intervals are exactly symmetric: hi - mean = mean - lo. -/
theorem normality_prediction_levels_correct {na nb H : ℕ}
    (sqrtFn ppf : ℚ → ℚ) (W : Matrix (BaseIdx na nb) (BaseIdx na nb) ℚ)
    (sigmah : Matrix (BaseIdx na nb) (Fin H) ℚ)
    (S : Matrix (BaseIdx na nb) (Fin nb) ℚ) (P : Matrix (Fin nb) (BaseIdx na nb) ℚ)
    (res : ResMap na nb H) (level : List ℚ) (M : BaseIdx na nb → Fin H → ℚ)
    (hM : res ResKey.mean = some M) (lv : ℚ) (hlv : lv ∈ level) :
    ∃ r2, NormalityM.getPredictionLevels (NormalityM.sigmahRec sqrtFn W sigmah S P)
        ppf res level = Except.ok r2 ∧
      r2 (ResKey.lo lv) = some (fun i t => M i t -
        ppf (1/2 + lv/200) * NormalityM.sigmahRec sqrtFn W sigmah S P i t) ∧
      r2 (ResKey.hi lv) = some (fun i t => M i t +
        ppf (1/2 + lv/200) * NormalityM.sigmahRec sqrtFn W sigmah S P i t) ∧
      r2 ResKey.sigmah = some (NormalityM.sigmahRec sqrtFn W sigmah S P) ∧
      (∀ i t, (M i t + ppf (1/2 + lv/200) * NormalityM.sigmahRec sqrtFn W sigmah S P i t)
            - M i t
          = M i t - (M i t -
              ppf (1/2 + lv/200) * NormalityM.sigmahRec sqrtFn W sigmah S P i t)) := by
  have hM1 : (rset res ResKey.sigmah (NormalityM.sigmahRec sqrtFn W sigmah S P))
      ResKey.mean = some M := by
    simp [rset, hM]
  obtain ⟨r2, heq, hpres, hmem⟩ := NormalityM.gplFold_spec
    (NormalityM.sigmahRec sqrtFn W sigmah S P) ppf M level _ hM1
  refine ⟨r2, heq, (hmem lv hlv).1, (hmem lv hlv).2, ?_, fun i t => by ring⟩
  rw [hpres ResKey.sigmah (fun lv2 _ => ⟨ResKey.noConfusion, ResKey.noConfusion⟩)]
  simp [rset]

/-- Witness for normality_prediction_levels_correct at the concrete
instance with level list [80]: the call succeeds there. -/
theorem normality_prediction_levels_correct_witness :
    (NormalityM.getPredictionLevels (NormalityM.sigmahRec id exW exSig exS exP)
      id (rset (fun _ => none) ResKey.mean exYhat) [(80 : ℚ)]).isOk = true := by
  obtain ⟨r2, heq, hrest⟩ := normality_prediction_levels_correct id id exW exSig exS exP
    (rset (fun _ => none) ResKey.mean exYhat) [(80 : ℚ)] exYhat (by simp [rset]) 80 (by simp)
  rw [heq]
  rfl

/-- Line 105: the quantiles tensor that Normality.get_prediction_quantiles
stores in res: mean[:,:,None] + z[None,None,:] * sigmah_rec[:,:,None] with
z = norm.ppf(quantiles), indexed (series, horizon, quantile). -/
def NormalityM.quantilesArr {na nb H : ℕ} (sigv : BaseIdx na nb → Fin H → ℚ)
    (ppf : ℚ → ℚ) (M : BaseIdx na nb → Fin H → ℚ) (qs : List ℚ) :
    BaseIdx na nb → Fin H → ℕ → ℚ :=
  fun i t q => M i t + ppf (qs.getD q 0) * sigv i t

/-- C1 (amended): for the Normality and Bootstrap samplers, every returned
sample path is coherent: at every horizon step and sample index the
aggregate rows equal S applied to the bottom rows of that same path. For
Normality this holds because the multivariate normal factor F satisfies
F * Fᵀ = cov_rec[t] = SP Wh SPᵀ, so every draw lies in the column space of
S; for Bootstrap because every path is SP times a vector. The original
claim also asserted this for PERMBU, where it fails: see
permbu_incoherent_sample_path. -/
theorem normality_bootstrap_samples_coherent {na nb H : ℕ}
    (S : Matrix (BaseIdx na nb) (Fin nb) ℚ) (hS : ProperS S) :
    (∀ (P : Matrix (Fin nb) (BaseIdx na nb) ℚ) (sqrtFn : ℚ → ℚ)
        (W : Matrix (BaseIdx na nb) (BaseIdx na nb) ℚ)
        (sigmah : Matrix (BaseIdx na nb) (Fin H) ℚ)
        (yhat : BaseIdx na nb → Fin H → ℚ)
        (G : Fin H → Matrix (BaseIdx na nb) (BaseIdx na nb) ℚ),
        (∀ t, G t * (G t)ᵀ = NormalityM.covRec sqrtFn W sigmah S P t) →
        ∀ (z : ℕ → ℕ → BaseIdx na nb → ℚ) (seed m : ℕ) (t : Fin H) (s : ℕ),
        Coherent S (fun i => NormalityM.getSamples S P yhat G z seed m i t s)) ∧
    (∀ (P : Matrix (Fin nb) (BaseIdx na nb) ℚ) (yhat : BaseIdx na nb → Fin H → ℚ)
        (resid : BaseIdx na nb → ℕ → ℚ) (sIdx : ℕ → ℕ) (t : Fin H) (s : ℕ),
        Coherent S (fun i => BootstrapM.samples S P yhat resid sIdx i t s)) := by
  constructor
  · intro P sqrtFn W sigmah yhat G hG z seed m t s
    apply coherent_of_mem_range hS
    have hmem1 : (NormalityM.SPm S P).mulVec (fun i2 => yhat i2 t) ∈
        LinearMap.range S.mulVecLin := by
      refine ⟨P.mulVec (fun i2 => yhat i2 t), ?_⟩
      rw [Matrix.mulVecLin_apply, Matrix.mulVec_mulVec]
      rfl
    have hfact : G t * (G t)ᵀ =
        S * (P * NormalityM.Wh sqrtFn W sigmah t * (NormalityM.SPm S P)ᵀ) := by
      rw [hG t]
      show NormalityM.SPm S P * _ * _ = _
      unfold NormalityM.SPm
      rw [Matrix.mul_assoc S P, Matrix.mul_assoc S]
    have hmem2 : (G t).mulVec (z seed (t.val * m + s)) ∈
        LinearMap.range S.mulVecLin := by
      refine range_mulVecLin_le_of_factor (G t) S _ hfact ?_
      exact ⟨z seed (t.val * m + s), by rw [Matrix.mulVecLin_apply]⟩
    exact Submodule.add_mem _ hmem1 hmem2
  · intro P yhat resid sIdx t s
    apply coherent_of_mem_range hS
    refine ⟨P.mulVec (fun i2 => yhat i2 t + resid i2 (sIdx s + t.val)), ?_⟩
    rw [Matrix.mulVecLin_apply, Matrix.mulVec_mulVec]
    rfl

/-- Witness for normality_bootstrap_samples_coherent at the concrete
instance, with sqrt modelled by the identity (exact on the values 0 and 1
that occur) and an arbitrary draw stream. -/
theorem normality_bootstrap_samples_coherent_witness :
    ProperS exS ∧
    Coherent exS (fun i => NormalityM.getSamples exS exP exYhat exG exZpos 0 1 i 0 0) ∧
    Coherent exS (fun i => BootstrapM.samples exS exP exYhat (fun _ _ => 1) id i 0 0) := by
  have hS : ProperS exS := by
    intro j j'
    have hjj : j' = j := Subsingleton.elim _ _
    simp [hjj, exS]
  have hG : ∀ t, exG t * (exG t)ᵀ = NormalityM.covRec id exW exSig exS exP t := by
    intro t
    funext i j
    rcases i with a | a <;> rcases j with b | b <;>
      simp [exG, NormalityM.covRec, NormalityM.SPm, NormalityM.Wh, cov2corr, exW, exSig,
        exS, exP, Matrix.mul_apply, Matrix.diagonal_apply, Matrix.transpose_apply,
        Fintype.sum_sum_type, Fin.sum_univ_one]
  refine ⟨hS, ?_, ?_⟩
  · exact (normality_bootstrap_samples_coherent exS hS).1 exP id exW exSig exYhat exG hG
      exZpos 0 1 0 0
  · exact (normality_bootstrap_samples_coherent exS hS).2 exP exYhat (fun _ _ => 1) id 0 0

/-- C3 counterexample: on the code as written (line 78 constructs
RandomState(self.seed) inside get_samples), two successive calls with the
same num_samples return bit-identical arrays, whereas with the
construction-seeded advancing generator the spec describes (twoCallsSpecModel)
the two calls would differ on a stream that distinguishes positions. This
refutes the claim that successive calls are independent draws from an
advancing generator state rather than bit-identical repeats. -/
theorem normality_reseed_counterexample :
    (NormalityM.twoCalls exS exP exYhat exG exZpos 0 1 1).1 =
      (NormalityM.twoCalls exS exP exYhat exG exZpos 0 1 1).2 ∧
    (NormalityM.twoCallsSpecModel exS exP exYhat exG exZpos 0 1 1).1 ≠
      (NormalityM.twoCallsSpecModel exS exP exYhat exG exZpos 0 1 1).2 := by
  refine ⟨rfl, fun h => ?_⟩
  have h0 := congrFun (congrFun (congrFun h (Sum.inl 0)) 0) 0
  simp only [NormalityM.twoCallsSpecModel, NormalityM.getSamples, NormalityM.SPm,
    Matrix.mulVec, Matrix.dotProduct, exS, exP, exYhat, exG, exZpos, Pi.add_apply,
    Fintype.sum_sum_type, Fin.sum_univ_one] at h0
  norm_num at h0

/-- C3 (amended): Normality.get_samples constructs a fresh
RandomState(self.seed) on every call, so two successive calls on the same
instance with the same num_samples yield bit-identical outputs; the draws
restart at the beginning of the stream of seed instead of continuing an
instance-owned generator. -/
theorem normality_two_calls_bit_identical {na nb H : ℕ}
    (S : Matrix (BaseIdx na nb) (Fin nb) ℚ) (P : Matrix (Fin nb) (BaseIdx na nb) ℚ)
    (yhat : BaseIdx na nb → Fin H → ℚ)
    (G : Fin H → Matrix (BaseIdx na nb) (BaseIdx na nb) ℚ)
    (z : ℕ → ℕ → BaseIdx na nb → ℚ) (seed m : ℕ) :
    (NormalityM.twoCalls S P yhat G z seed m m).1 =
      (NormalityM.twoCalls S P yhat G z seed m m).2 := rfl

/- Untyped array embedding: numpy arrays carry explicit dimensions and total
value functions (entries outside the dimensions are irrelevant defaults);
fallible numpy operations return Except String. Used for the shape and
error-path claims and for the full PERMBU pipeline. -/

/-- A 2-d numpy array over exact rationals. -/
structure UArr where
  rows : ℕ
  cols : ℕ
  val : ℕ → ℕ → ℚ

/-- A 2-d numpy array that may hold missing values (NaN is modelled as
none). -/
structure UArrO where
  rows : ℕ
  cols : ℕ
  val : ℕ → ℕ → Option ℚ

/-- A 3-d numpy array. -/
structure UArr3 where
  d1 : ℕ
  d2 : ℕ
  d3 : ℕ
  val : ℕ → ℕ → ℕ → ℚ

/-- Matrix product A @ B; numpy raises on an inner-dimension mismatch. -/
def umul (A B : UArr) : Except String UArr :=
  if A.cols = B.rows then
    Except.ok ⟨A.rows, B.cols, fun i j => ∑ k ∈ Finset.range A.cols, A.val i k * B.val k j⟩
  else Except.error "ValueError: matmul dimension mismatch"

/-- Transpose of a 2-d array. -/
def utranspose (A : UArr) : UArr := ⟨A.cols, A.rows, fun i j => A.val j i⟩

/-- np.diag of a length-n vector. -/
def udiag (n : ℕ) (v : ℕ → ℚ) : UArr := ⟨n, n, fun i j => if i = j then v i else 0⟩

/-- Elementwise difference of two possibly-NaN arrays, NaN propagating;
dimensions must agree. -/
def usubOVal (A B : UArrO) : UArrO :=
  ⟨A.rows, A.cols, fun i j =>
    match A.val i j, B.val i j with
    | some a, some b => some (a - b)
    | _, _ => none⟩

/-- A - B on possibly-NaN arrays; numpy raises when the shapes disagree. -/
def usubO (A B : UArrO) : Except String UArrO :=
  if A.rows = B.rows ∧ A.cols = B.cols then Except.ok (usubOVal A B)
  else Except.error "ValueError: operand shape mismatch"

/-- np.transpose(a, (1, 2, 0)): the result at (x0, x1, x2) is the input at
(x2, x0, x1), so a (B, N, H) array becomes (N, H, B). -/
def UArr3.transpose120 (a : UArr3) : UArr3 := ⟨a.d2, a.d3, a.d1, fun i t s => a.val s i t⟩

/-- The sample values along the third axis at fixed (series, horizon). -/
def UArr3.sliceList (a : UArr3) (i t : ℕ) : List ℚ :=
  (List.range a.d3).map (fun s => a.val i t s)

/-- Column indices kept after dropping every column containing a missing
value in any series (lines 174 and 351). -/
def keptCols (R : UArrO) : List ℕ :=
  (List.range R.cols).filter (fun j => (List.range R.rows).all (fun i => (R.val i j).isSome))

/-- The residual matrix restricted to its kept columns. -/
def dropNaN (R : UArrO) : UArr :=
  ⟨R.rows, (keptCols R).length, fun i j => (R.val i ((keptCols R).getD j 0)).getD 0⟩

/-- np.quantile with the default linear interpolation on sorted data: the
virtual position is q * (n - 1) and the value interpolates between the two
neighbouring order statistics. -/
def quantileOfSorted (s : List ℚ) (q : ℚ) : ℚ :=
  if s.length = 0 then 0
  else
    let pos : ℚ := q * ((s.length - 1 : ℕ) : ℚ)
    let i : ℕ := (Int.floor pos).toNat
    s.getD i 0 + (pos - (i : ℚ)) * (s.getD (min (i + 1) (s.length - 1)) 0 - s.getD i 0)

/-- np.quantile of a data vector: sort ascending, then interpolate. -/
def npQuantile (l : List ℚ) (q : ℚ) : ℚ :=
  quantileOfSorted (l.insertionSort (fun x y => x ≤ y)) q

/-- The instance state built by Normality.__init__ (lines 43 to 65). -/
structure NormalityState where
  S : UArr
  P : UArr
  yhat : UArr
  W : UArr
  sigmah : UArr
  seed : ℕ
  SP : UArr
  covRec : List UArr
  sigmahRec : UArr

/-- Modelled from the spec: cov2corr of utils.py (not among the source
files) divides W by the outer product of the standard deviations of its
diagonal; sqrtFn models np.sqrt. -/
def cov2corrU (sqrtFn : ℚ → ℚ) (W : UArr) : UArr :=
  ⟨W.rows, W.cols, fun i j => W.val i j / (sqrtFn (W.val i i) * sqrtFn (W.val j j))⟩

/-- Lines 43 to 65: Normality.__init__. Computes SP = S @ P (line 53, raising
on an inner-dimension mismatch), R1 = cov2corr(W) (line 60), the per-step
covariances diag(sigma) @ R1 @ diag(sigma).T over the columns of sigmah
(line 61), the reconciled covariances SP @ Wh @ SP.T (line 64) and
sigmah_rec (line 65). y_hat is stored but never used in a computation, so a
mismatched y_hat cannot raise here. -/
def Normality.initWh (sqrtFn : ℚ → ℚ) (W sigmah : UArr) : Except String (List UArr) :=
  (List.range sigmah.cols).mapM (fun t => do
    let D := udiag sigmah.rows (fun i => sigmah.val i t)
    let X ← umul D (cov2corrU sqrtFn W)
    umul X (utranspose D))

def Normality.initCovs (SP : UArr) (Whs : List UArr) : Except String (List UArr) :=
  Whs.mapM (fun Wht => do
    let X ← umul SP Wht
    umul X (utranspose SP))

def Normality.init (sqrtFn : ℚ → ℚ) (S P yhat sigmah W : UArr) (seed : ℕ) :
    Except String NormalityState :=
  match umul S P with
  | Except.error e => Except.error e
  | Except.ok SP =>
    match Normality.initWh sqrtFn W sigmah with
    | Except.error e => Except.error e
    | Except.ok Whs =>
      match Normality.initCovs SP Whs with
      | Except.error e => Except.error e
      | Except.ok covs =>
        Except.ok ⟨S, P, yhat, W, sigmah, seed, SP, covs,
          ⟨SP.rows, sigmah.cols,
            fun i t => sqrtFn ((covs.getD t ⟨0, 0, fun _ _ => 0⟩).val i i)⟩⟩

/-- Lines 67 to 88, shape semantics of Normality.get_samples:
np.empty((num_samples, N, H)) with (N, H) = y_hat.shape is filled per
horizon step with the (num_samples, N) matrix drawn by
state.multivariate_normal (entry values delegated to the draw parameter
mvn; the value semantics is NormalityM.getSamples), then transposed
(1, 2, 0). The mean SP @ y_hat[:, t] raises if SP.cols differs from
y_hat.rows; the slice assignment raises if the draw width SP.rows differs
from y_hat.rows. -/
def Normality.getSamples (mvn : ℕ → ℕ → ℕ → ℕ → ℚ) (st : NormalityState)
    (numSamples : ℕ) : Except String UArr3 :=
  if st.SP.cols = st.yhat.rows then
    if st.SP.rows = st.yhat.rows then
      Except.ok (UArr3.transpose120 ⟨numSamples, st.yhat.rows, st.yhat.cols,
        fun s i t => mvn st.seed t s i⟩)
    else Except.error "ValueError: could not broadcast"
  else Except.error "ValueError: matmul dimension mismatch"

/-- The instance state stored by Bootstrap.__init__ (lines 140 to 156). -/
structure BootstrapState where
  S : UArr
  P : UArr
  W : Option UArr
  yhat : UArr
  y_insample : UArrO
  y_hat_insample : UArrO
  num_samples : ℕ
  seed : ℕ

/-- Lines 140 to 156: the Bootstrap constructor only stores its inputs; it
performs no computation and can never raise. -/
def Bootstrap.init (S P yhat : UArr) (y_insample y_hat_insample : UArrO)
    (num_samples seed : ℕ) (W : Option UArr) : Except String BootstrapState :=
  Except.ok ⟨S, P, W, yhat, y_insample, y_hat_insample, num_samples, seed⟩

/-- Lines 158 to 186: Bootstrap.get_samples. Residuals are the in-sample
errors with incomplete columns dropped (lines 170 to 174); the valid start
indices are np.arange(residual_columns - h) (line 175, empty when the
residual columns do not exceed h, in which case state.choice raises on an
empty candidate array, line 177); each sample path is y_hat plus an h-wide
residual block, reconciled by SP (lines 178 to 181), stacked and transposed
(1, 2, 0). choice models the seeded draws of state.choice: the s-th drawn
start index is sample_idx[choice seed s mod len]. -/
def Bootstrap.getSamples (choice : ℕ → ℕ → ℕ) (st : BootstrapState)
    (numSamples : ℕ) : Except String UArr3 :=
  match usubO st.y_insample st.y_hat_insample with
  | Except.error e => Except.error e
  | Except.ok residualsO =>
    let residuals := dropNaN residualsO
    let h := st.yhat.cols
    let sampleIdx := List.range (residuals.cols - h)
    if sampleIdx.isEmpty then
      Except.error "ValueError: a must be non-empty"
    else
      let samplesIdx : ℕ → ℕ := fun s => sampleIdx.getD (choice st.seed s % sampleIdx.length) 0
      match umul st.S st.P with
      | Except.error e => Except.error e
      | Except.ok SP =>
        if st.yhat.rows = residuals.rows ∧ SP.cols = st.yhat.rows then
          Except.ok (UArr3.transpose120 ⟨numSamples, SP.rows, h, fun s i t =>
            ∑ k ∈ Finset.range SP.cols, SP.val i k *
              (st.yhat.val k t + residuals.val k (samplesIdx s + t))⟩)
        else Except.error "ValueError: broadcast or matmul dimension mismatch"

/-- Lines 198 to 205: Bootstrap.get_prediction_quantiles calls get_samples
with the stored default num_samples, computes np.quantile along the sample
axis (quantile levels first, giving (Q, N, H)), and transposes (1, 2, 0)
into the (N, H, Q) array stored at res[quantiles]. -/
def Bootstrap.getPredictionQuantiles (choice : ℕ → ℕ → ℕ) (st : BootstrapState)
    (qs : List ℚ) : Except String UArr3 :=
  match Bootstrap.getSamples choice st st.num_samples with
  | Except.error e => Except.error e
  | Except.ok samples =>
    Except.ok (UArr3.transpose120 ⟨qs.length, samples.d1, samples.d2,
      fun qi i t => npQuantile (samples.sliceList i t) (qs.getD qi 0)⟩)

/-- A 2-d integer array (permutation and rank matrices). -/
structure UArrN where
  rows : ℕ
  cols : ℕ
  val : ℕ → ℕ → ℕ

/-- Success predicate: every successful result of the computation satisfies
the postcondition. -/
def onOk {β : Type} (e : Except String β) (p : β → Prop) : Prop :=
  ∀ b, e = Except.ok b → p b

/-- The instance state stored by PERMBU.__init__ (lines 253 to 260). -/
structure PERMBUState where
  S : UArr
  tags : List (String × List ℕ)
  yhat : UArr
  y_insample : UArrO
  y_hat_insample : UArrO
  sigmah : UArr
  num_samples : Option ℕ
  seed : ℕ

/-- Modelled from the spec: is_strictly_hierarchical of utils.py (not among
the source files). Per spec sections 3 and 4.3 the (S, tags) pair is
strictly hierarchical when each bottom series has exactly one ancestor per
level: for every tag level and every column j of S, exactly one row listed
for that level has a nonzero entry in column j. -/
def isStrictlyHierarchical (S : UArr) (tags : List (String × List ℕ)) : Bool :=
  tags.all (fun lt => (List.range S.cols).all (fun j =>
    (lt.2.countP (fun i => decide (S.val i j ≠ 0))) == 1))

/-- Lines 240 to 260: PERMBU.__init__ validates strict hierarchy first
(lines 250 to 252), raising ValueError before any instance state is
established; otherwise it stores its inputs. -/
def PERMBU.init (S : UArr) (tags : List (String × List ℕ))
    (yhat : UArr) (y_insample y_hat_insample : UArrO) (sigmah : UArr)
    (num_samples : Option ℕ) (seed : ℕ) : Except String PERMBUState :=
  if isStrictlyHierarchical S tags then
    Except.ok ⟨S, tags, yhat, y_insample, y_hat_insample, sigmah, num_samples, seed⟩
  else
    Except.error
      "ValueError: PERMBU probabilistic reconciliation requires strictly hierarchical structures"

/-- Lines 275 to 279: argsort of one row (ties resolved by index, which
agrees with numpy on rows with pairwise distinct values). -/
def argsortRow (v : ℕ → ℚ) (C : ℕ) : List ℕ :=
  (List.range C).insertionSort (fun a b => v a < v b ∨ (v a = v b ∧ a ≤ b))

/-- Lines 262 to 280: _obtain_ranks. ranks[temp[k]] = k, so the rank of
column c is the position of c in the argsort order of its row. -/
def obtainRanks (A : UArr) : UArrN :=
  ⟨A.rows, A.cols, fun i c => (argsortRow (A.val i) A.cols).indexOf c⟩

/-- Guard for _permutate_samples (lines 282 to 305): the flat gather offsets
rows by permutations.shape[1] and reshapes to permutations.shape, and
_permutate_predictions (lines 307 to 330) assigns the result back into a
slice of the sample tensor, so the shapes must agree; every permutation
entry must stay below the column count (rank and shuffle matrices always
do; an entry at or above it would address the flat data of another row and, at
or above the flat size, raise IndexError). -/
def permOk (d1 d3 : ℕ) (perms : UArrN) : Bool :=
  perms.rows == d1 && perms.cols == d3 &&
    (List.range perms.rows).all (fun r => (List.range perms.cols).all
      (fun c => perms.val r c < d3))

/-- Lines 307 to 330: _permutate_predictions, applying the flat gather of
_permutate_samples at every horizon step: the output at (i, t, s) is the
input at row (perm[i, s] + i * cols) / d3 and sample (same) mod d3, which
for in-range entries is the per-row gather input[i, t, perm[i, s]]. -/
def permutatePredictions (ps : UArr3) (perms : UArrN) : Except String UArr3 :=
  if permOk ps.d1 ps.d3 perms then
    Except.ok ⟨ps.d1, ps.d2, ps.d3, fun i t s =>
      let k := perms.val i s + i * perms.cols
      ps.val (k / ps.d3) t (k % ps.d3)⟩
  else Except.error "ValueError or IndexError in permutate samples"

/-- Line 332 applied to S.T (line 375): for each bottom series j, the
ascending list of rows of S with a nonzero entry in column j. -/
def nonzeroIdxByCol (S : UArr) : List (List ℕ) :=
  (List.range S.cols).map (fun j =>
    (List.range S.rows).filter (fun i => decide (S.val i j ≠ 0)))

/-- Lexicographic order on (parent, child) links. -/
def pairLe (p q : ℕ × ℕ) : Prop := p.1 < q.1 ∨ (p.1 = q.1 ∧ p.2 ≤ q.2)

instance : DecidableRel pairLe := fun p q => by
  unfold pairLe
  exact inferInstance

/-- np.unique on the rows of a two-column integer array (line 381):
lexicographically sorted distinct rows. -/
def uniquePairs (l : List (ℕ × ℕ)) : List (ℕ × ℕ) :=
  (l.dedup).insertionSort pairLe

/-- np.unique on an integer vector (lines 383 to 384): sorted distinct
values. -/
def uniqueNats (l : List ℕ) : List ℕ :=
  (l.dedup).insertionSort (fun a b => a ≤ b)

/-- One iteration (level_idx = l) of the bottom-up loop of lines 379 to 408.
The aggregation matrix Agg is OneHotEncoder.fit_transform of the distinct
(parent, child) links, transposed and truncated to the first
len(parent_idxs) rows (lines 385 to 386): the encoder one-hot-encodes the
parent column first with sorted categories, so row p of Agg marks the link
rows whose parent is parent_idxs[p]. Children rows are gathered, permuted
by their rank permutations, aggregated by einsum, shuffled by the fresh
global permutations (gperm), and written back over the parent rows. -/
def PERMBU.levelStep (gperm : ℕ → ℕ → ℕ → ℕ) (hierLinks : List (List ℕ))
    (ranks : UArrN) (n : ℕ) (l : ℕ) (rec : UArr3) : Except String UArr3 :=
  let childrenLinks := uniquePairs (hierLinks.map (fun p => (p.getD l 0, p.getD (l + 1) 0)))
  let childrenIdxs := uniqueNats (childrenLinks.map (fun pc => pc.2))
  let parentIdxs := uniqueNats (childrenLinks.map (fun pc => pc.1))
  let Agg : UArr := ⟨parentIdxs.length, childrenLinks.length,
    fun p r => if (childrenLinks.getD r (0, 0)).1 = parentIdxs.getD p 0 then 1 else 0⟩
  let childrenPerms : UArrN := ⟨childrenIdxs.length, ranks.cols,
    fun c k => ranks.val (childrenIdxs.getD c 0) k⟩
  let childrenSamples : UArr3 := ⟨childrenIdxs.length, rec.d2, rec.d3,
    fun c t s => rec.val (childrenIdxs.getD c 0) t s⟩
  match permutatePredictions childrenSamples childrenPerms with
  | Except.error e => Except.error e
  | Except.ok permuted =>
    if Agg.cols = permuted.d1 then
      let parentSamples : UArr3 := ⟨Agg.rows, permuted.d2, permuted.d3,
        fun a t s => ∑ b ∈ Finset.range Agg.cols, Agg.val a b * permuted.val b t s⟩
      let randomPerm : UArrN := ⟨Agg.rows, n, fun p s => gperm l p s⟩
      match permutatePredictions parentSamples randomPerm with
      | Except.error e => Except.error e
      | Except.ok shuffled =>
        Except.ok ⟨rec.d1, rec.d2, rec.d3, fun i t s =>
          if i ∈ parentIdxs then shuffled.val (parentIdxs.indexOf i) t s
          else rec.val i t s⟩
    else Except.error "ValueError: einsum dimension mismatch"

/-- The python for-loop over the reversed level range, stopping at the
first error. -/
def listFoldlMExc {α β : Type} (f : α → β → Except String β) :
    List α → β → Except String β
  | [], b => Except.ok b
  | a :: rest, b =>
    match f a b with
    | Except.error e => Except.error e
    | Except.ok b2 => listFoldlMExc f rest b2

/-- Lines 357 to 409 of PERMBU.get_samples, after the residual matrix has
been fixed: ranks, base samples from the seeded normal draws
(state.normal(loc, scale, size) is loc + scale * standard draw, flat row k
consuming stream positions k * n + s), the hier_links table (np.vstack
raising unless all ancestor paths have equal length), and the bottom-up
loop over reversed(range(levels)). -/
def PERMBU.getSamplesCore (z : ℕ → ℕ → ℚ) (gperm : ℕ → ℕ → ℕ → ℕ)
    (st : PERMBUState) (n : ℕ) (residuals : UArr) : Except String UArr3 :=
  let ranks := obtainRanks residuals
  let N := st.yhat.rows
  let H := st.yhat.cols
  if min (N * H) (st.sigmah.rows * st.sigmah.cols) = N * H then
    let base : UArr3 := ⟨N, H, n, fun i t s =>
      let k := i * H + t
      st.yhat.val (k / H) (k % H) +
        st.sigmah.val (k / st.sigmah.cols) (k % st.sigmah.cols) * z st.seed (k * n + s)⟩
    let hierLinks := nonzeroIdxByCol st.S
    let w := (hierLinks.headD []).length
    if hierLinks.all (fun p => p.length == w) then
      listFoldlMExc (PERMBU.levelStep gperm hierLinks ranks n)
        ((List.range (w - 1)).reverse) base
    else Except.error "ValueError: vstack row length mismatch"
  else Except.error "ValueError: cannot reshape"

/-- Lines 335 to 409: PERMBU.get_samples. z models the stream of standard
normal draws of the RandomState constructed from the instance seed on line
363; gchoice and gperm model the draws of the UNSEEDED global generator
np.random used on line 355 (residual expansion indices, taken mod the
residual width) and line 400 (per-parent shuffles). The comparison
num_samples > residuals.shape[1] on line 354 raises TypeError when
num_samples is None, which makes the defaulting branch of lines 360 to 361
unreachable for that input (in the some branch the drawn count stays n). -/
def PERMBU.getSamples (z : ℕ → ℕ → ℚ) (gchoice : ℕ → ℕ)
    (gperm : ℕ → ℕ → ℕ → ℕ) (st : PERMBUState) (numSamples : Option ℕ) :
    Except String UArr3 :=
  match usubO st.y_insample st.y_hat_insample with
  | Except.error e => Except.error e
  | Except.ok residualsO =>
    let residuals0 := dropNaN residualsO
    match numSamples with
    | none => Except.error "TypeError: NoneType and int are not comparable"
    | some n =>
      if residuals0.cols < n then
        if residuals0.cols = 0 then
          Except.error "ValueError: a must be greater than 0"
        else
          PERMBU.getSamplesCore z gperm st n
            ⟨residuals0.rows, n, fun i j => residuals0.val i (gchoice j % residuals0.cols)⟩
      else
        PERMBU.getSamplesCore z gperm st n residuals0

/-- Lines 411 to 419: PERMBU.get_prediction_levels calls get_samples with
the stored num_samples and, per level lv, takes the empirical quantiles at
min_q = (100 - lv) / 200 and max_q = min_q + lv / 100 along the sample
axis. -/
def PERMBU.getPredictionLevels (z : ℕ → ℕ → ℚ) (gchoice : ℕ → ℕ)
    (gperm : ℕ → ℕ → ℕ → ℕ) (st : PERMBUState) (level : List ℚ) :
    Except String (List (ℚ × UArr × UArr)) :=
  match PERMBU.getSamples z gchoice gperm st st.num_samples with
  | Except.error e => Except.error e
  | Except.ok samples =>
    Except.ok (level.map (fun lv =>
      (lv,
       ⟨samples.d1, samples.d2,
         fun i t => npQuantile (samples.sliceList i t) ((100 - lv) / 200)⟩,
       ⟨samples.d1, samples.d2,
         fun i t => npQuantile (samples.sliceList i t) ((100 - lv) / 200 + lv / 100)⟩)))

/-- Lines 421 to 428: PERMBU.get_prediction_quantiles, same empirical
quantile extraction and (1, 2, 0) transpose as Bootstrap. -/
def PERMBU.getPredictionQuantiles (z : ℕ → ℕ → ℚ) (gchoice : ℕ → ℕ)
    (gperm : ℕ → ℕ → ℕ → ℕ) (st : PERMBUState) (qs : List ℚ) :
    Except String UArr3 :=
  match PERMBU.getSamples z gchoice gperm st st.num_samples with
  | Except.error e => Except.error e
  | Except.ok samples =>
    Except.ok (UArr3.transpose120 ⟨qs.length, samples.d1, samples.d2,
      fun qi i t => npQuantile (samples.sliceList i t) (qs.getD qi 0)⟩)

/- Concrete untyped instances used by witnesses and counterexamples. The
PERMBU instance is the three-series hierarchy S = [[1,1],[1,0],[0,1]]
(one total, two bottom series), horizon 1, two in-sample columns. -/

def exS3 : UArr := ⟨3, 2, fun i j =>
  if i = 0 then 1 else if (i = 1 ∧ j = 0) ∨ (i = 2 ∧ j = 1) then 1 else 0⟩

def exYhat3 : UArr := ⟨3, 1, fun _ _ => 0⟩

def exSig3 : UArr := ⟨3, 1, fun _ _ => 1⟩

/-- In-sample actuals equal to the intended residuals (fitted values are
zero): residual rows [0, 0], [2, 1], [1, 2]. -/
def exYin : UArrO := ⟨3, 2, fun i j =>
  some (if i = 1 then (if j = 0 then 2 else 1)
        else if i = 2 then (if j = 0 then 1 else 2) else 0)⟩

def exYhatIn : UArrO := ⟨3, 2, fun _ _ => some 0⟩

def exTags : List (String × List ℕ) := [("top", [0]), ("bottom", [1, 2])]

def exPS : PERMBUState := ⟨exS3, exTags, exYhat3, exYin, exYhatIn, exSig3, some 2, 0⟩

/-- The same instance with the constructor default num_samples = None. -/
def exPSNone : PERMBUState := ⟨exS3, exTags, exYhat3, exYin, exYhatIn, exSig3, none, 0⟩

/-- Seeded standard normal draws: position k of the stream maps to the k-th
entry of a fixed list, so base samples are [100, 200], [1, 2], [4, 8]. -/
def exZ : ℕ → ℕ → ℚ := fun _ pos => [(100 : ℚ), 200, 1, 2, 4, 8].getD pos 0

/-- Global np.random.choice draws (unused when no expansion happens). -/
def exGchoice : ℕ → ℕ := fun _ => 0

/-- Global np.random.permutation draw: the identity permutation. -/
def exGpermId : ℕ → ℕ → ℕ → ℕ := fun _ _ s => s

/-- Global np.random.permutation draw: the swap of two samples. -/
def exGpermSwap : ℕ → ℕ → ℕ → ℕ := fun _ _ s => 1 - s

/-- A Bootstrap instance whose residual history has exactly horizon length:
one series, horizon 1, one complete residual column. -/
def exBSfail : BootstrapState :=
  ⟨⟨1, 1, fun _ _ => 1⟩, ⟨1, 1, fun _ _ => 1⟩, none, ⟨1, 1, fun _ _ => 0⟩,
    ⟨1, 1, fun _ _ => some 1⟩, ⟨1, 1, fun _ _ => some 0⟩, 100, 0⟩

/-- A Bootstrap instance with two residual columns and horizon 1, so
get_samples succeeds. -/
def exBSok : BootstrapState :=
  ⟨⟨1, 1, fun _ _ => 1⟩, ⟨1, 1, fun _ _ => 1⟩, none, ⟨1, 1, fun _ _ => 0⟩,
    ⟨1, 2, fun _ j => some (if j = 0 then 3 else 7)⟩, ⟨1, 2, fun _ _ => some 0⟩, 2, 0⟩

/-- A Normality instance state with consistent one-by-one arrays. -/
def exNS : NormalityState :=
  ⟨⟨1, 1, fun _ _ => 1⟩, ⟨1, 1, fun _ _ => 1⟩, ⟨1, 1, fun _ _ => 0⟩,
    ⟨1, 1, fun _ _ => 1⟩, ⟨1, 1, fun _ _ => 1⟩, 0, ⟨1, 1, fun _ _ => 1⟩,
    [⟨1, 1, fun _ _ => 1⟩], ⟨1, 1, fun _ _ => 1⟩⟩

/-- A summing matrix with an overlapping (non-tree) level: rows [1,1] and
[1,0] both cover bottom series 0 within the same tag level. -/
def exBadS : UArr := ⟨2, 2, fun i j => if i = 0 ∨ j = 0 then 1 else 0⟩

def exBadTags : List (String × List ℕ) := [("lvl", [0, 1])]

/-- C5: Bootstrap.get_samples raises (and produces nothing) whenever the
residual columns left after dropping incomplete columns do not exceed the
horizon: the start-index range np.arange(residual_columns - h) is then
empty and state.choice raises on it, before any sample is formed. -/
theorem bootstrap_empty_range_error (choice : ℕ → ℕ → ℕ) (st : BootstrapState)
    (n : ℕ) (hr : st.y_insample.rows = st.y_hat_insample.rows)
    (hc : st.y_insample.cols = st.y_hat_insample.cols)
    (hlen : (keptCols (usubOVal st.y_insample st.y_hat_insample)).length ≤ st.yhat.cols) :
    Bootstrap.getSamples choice st n = Except.error "ValueError: a must be non-empty" := by
  have hz : (dropNaN (usubOVal st.y_insample st.y_hat_insample)).cols - st.yhat.cols = 0 :=
    Nat.sub_eq_zero_of_le hlen
  simp [Bootstrap.getSamples, usubO, hr, hc, hz]

/-- Witness for bootstrap_empty_range_error: residual length equals the
horizon (one complete column, horizon 1). -/
theorem bootstrap_empty_range_error_witness :
    Bootstrap.getSamples (fun _ _ => 0) exBSfail 100 =
      Except.error "ValueError: a must be non-empty" :=
  bootstrap_empty_range_error (fun _ _ => 0) exBSfail 100 rfl rfl (by decide)

/-- C8: constructing PERMBU with a summing matrix and tags pair that the
strict-hierarchy validator rejects raises ValueError immediately, before
any instance state is established (the check is the first statement of
the constructor). -/
theorem permbu_non_tree_rejected (S : UArr) (tags : List (String × List ℕ))
    (yhat : UArr) (y_insample y_hat_insample : UArrO) (sigmah : UArr)
    (num_samples : Option ℕ) (seed : ℕ)
    (h : isStrictlyHierarchical S tags = false) :
    PERMBU.init S tags yhat y_insample y_hat_insample sigmah num_samples seed =
      Except.error
        "ValueError: PERMBU probabilistic reconciliation requires strictly hierarchical structures" := by
  simp [PERMBU.init, h]

/-- Witness for permbu_non_tree_rejected at the overlapping two-row
grouping. -/
theorem permbu_non_tree_rejected_witness :
    PERMBU.init exBadS exBadTags exYhat3 exYin exYhatIn exSig3 none 0 =
      Except.error
        "ValueError: PERMBU probabilistic reconciliation requires strictly hierarchical structures" :=
  permbu_non_tree_rejected exBadS exBadTags exYhat3 exYin exYhatIn exSig3 none 0 (by decide)

/-- C9 counterexample: the Bootstrap constructor accepts dimensionally
mismatched S and P (S is 1 by 1, P is 2 by 2) without raising: it stores
its inputs and performs no computation, so the claim that every dimension
mismatch among S, P, y_hat, W/sigmah fails at construction is false. -/
theorem bootstrap_init_accepts_mismatch :
    (⟨1, 1, fun _ _ => 1⟩ : UArr).cols ≠ (⟨2, 2, fun _ _ => 1⟩ : UArr).rows ∧
    (Bootstrap.init ⟨1, 1, fun _ _ => 1⟩ ⟨2, 2, fun _ _ => 1⟩ ⟨1, 1, fun _ _ => 0⟩
      ⟨1, 2, fun _ _ => some 0⟩ ⟨1, 2, fun _ _ => some 0⟩ 100 0 none).isOk = true := by
  exact ⟨by decide, rfl⟩

/-- A Bootstrap instance with mismatched S (1 by 1) and P (2 by 2) but
otherwise well-shaped arrays and two residual columns against horizon 1,
so the first get_samples call reaches the S @ P product. -/
def exBSmis : BootstrapState :=
  ⟨⟨1, 1, fun _ _ => 1⟩, ⟨2, 2, fun _ _ => 1⟩, none, ⟨1, 1, fun _ _ => 0⟩,
    ⟨1, 2, fun _ j => some (if j = 0 then 3 else 7)⟩, ⟨1, 2, fun _ _ => some 0⟩, 2, 0⟩

lemma initWh_mismatch (sqrtFn : ℚ → ℚ) (W sigmah : UArr) (hcols : 0 < sigmah.cols)
    (hm : sigmah.rows ≠ W.rows) :
    Normality.initWh sqrtFn W sigmah =
      Except.error "ValueError: matmul dimension mismatch" := by
  unfold Normality.initWh
  obtain ⟨k, hk⟩ : ∃ k, sigmah.cols = k + 1 :=
    ⟨sigmah.cols - 1, (Nat.succ_pred_eq_of_pos hcols).symm⟩
  rw [hk, List.range_succ_eq_map, List.mapM_cons]
  simp [umul, udiag, cov2corrU, hm, Except.bind]
  rfl

/-- C9 (amended): dimension mismatches are not uniformly fatal at
construction. The Bootstrap constructor performs no computation and never
raises; its S-versus-P mismatch surfaces instead at the first get_samples
call (once that call reaches the S @ P product). The Normality constructor
raises exactly for the mismatches its precomputation multiplies: S against
P (line 53), and sigmah against W in the per-step covariance products of
line 61 whenever sigmah has at least one column; a mismatched y_hat is
stored unchecked, so construction success is independent of y_hat. -/
theorem dim_mismatch_construction_behavior :
    (∀ (S P yhat : UArr) (y_insample y_hat_insample : UArrO) (ns seed : ℕ)
        (W : Option UArr),
        (Bootstrap.init S P yhat y_insample y_hat_insample ns seed W).isOk = true) ∧
    (∀ (choice : ℕ → ℕ → ℕ) (st : BootstrapState) (n : ℕ),
        st.y_insample.rows = st.y_hat_insample.rows →
        st.y_insample.cols = st.y_hat_insample.cols →
        st.yhat.rows = st.y_insample.rows →
        st.yhat.cols < (keptCols (usubOVal st.y_insample st.y_hat_insample)).length →
        st.S.cols ≠ st.P.rows →
        Bootstrap.getSamples choice st n =
          Except.error "ValueError: matmul dimension mismatch") ∧
    (∀ (sqrtFn : ℚ → ℚ) (S P yhat sigmah W : UArr) (seed : ℕ), S.cols ≠ P.rows →
        Normality.init sqrtFn S P yhat sigmah W seed =
          Except.error "ValueError: matmul dimension mismatch") ∧
    (∀ (sqrtFn : ℚ → ℚ) (S P yhat sigmah W : UArr) (seed : ℕ),
        0 < sigmah.cols → sigmah.rows ≠ W.rows →
        (Normality.init sqrtFn S P yhat sigmah W seed).isOk = false) ∧
    (∀ (sqrtFn : ℚ → ℚ) (S P yhat yhat2 sigmah W : UArr) (seed : ℕ),
        (Normality.init sqrtFn S P yhat sigmah W seed).isOk =
          (Normality.init sqrtFn S P yhat2 sigmah W seed).isOk) := by
  refine ⟨fun S P yhat yi yhi ns seed W => rfl, ?_, ?_, ?_, ?_⟩
  · intro choice st n hr hc hyr hlt hSP
    have hne : (dropNaN (usubOVal st.y_insample st.y_hat_insample)).cols - st.yhat.cols ≠ 0 :=
      Nat.sub_ne_zero_of_lt hlt
    simp [Bootstrap.getSamples, usubO, hr, hc, hne, umul, hSP]
  · intro sqrtFn S P yhat sigmah W seed h
    simp [Normality.init, umul, h]
  · intro sqrtFn S P yhat sigmah W seed hcols hm
    unfold Normality.init
    cases h1 : umul S P with
    | error e => rfl
    | ok SP =>
      dsimp only
      rw [initWh_mismatch sqrtFn W sigmah hcols hm]
      rfl
  · intro sqrtFn S P yhat yhat2 sigmah W seed
    unfold Normality.init
    cases h1 : umul S P with
    | error e => rfl
    | ok SP =>
      cases h2 : Normality.initWh sqrtFn W sigmah with
      | error e => rfl
      | ok Whs =>
        dsimp only
        cases h3 : Normality.initCovs SP Whs with
        | error e => rfl
        | ok covs => rfl

/-- Witness for dim_mismatch_construction_behavior: the Bootstrap
constructor accepts S 1 by 1 against P 2 by 2 and that mismatch errors at
get_samples instead; Normality construction rejects the same S/P mismatch
and a sigmah (2 by 1) against W (1 by 1) mismatch. -/
theorem dim_mismatch_construction_behavior_witness :
    (Bootstrap.init ⟨1, 1, fun _ _ => 1⟩ ⟨2, 2, fun _ _ => 1⟩ ⟨1, 1, fun _ _ => 0⟩
      ⟨1, 2, fun _ _ => some 0⟩ ⟨1, 2, fun _ _ => some 0⟩ 100 0 none).isOk = true ∧
    Bootstrap.getSamples (fun _ _ => 0) exBSmis 2 =
      Except.error "ValueError: matmul dimension mismatch" ∧
    Normality.init id ⟨1, 1, fun _ _ => 1⟩ ⟨2, 2, fun _ _ => 1⟩ ⟨1, 1, fun _ _ => 0⟩
      ⟨1, 1, fun _ _ => 1⟩ ⟨1, 1, fun _ _ => 1⟩ 0 =
        Except.error "ValueError: matmul dimension mismatch" ∧
    (Normality.init id ⟨1, 1, fun _ _ => 1⟩ ⟨1, 1, fun _ _ => 1⟩ ⟨1, 1, fun _ _ => 0⟩
      ⟨2, 1, fun _ _ => 1⟩ ⟨1, 1, fun _ _ => 1⟩ 0).isOk = false :=
  ⟨dim_mismatch_construction_behavior.1 _ _ _ _ _ 100 0 none,
   dim_mismatch_construction_behavior.2.1 (fun _ _ => 0) exBSmis 2 rfl rfl rfl
     (by decide) (by decide),
   dim_mismatch_construction_behavior.2.2.1 id _ _ _ _ _ 0 (by decide),
   dim_mismatch_construction_behavior.2.2.2.1 id _ _ _ _ _ 0 (by decide) (by decide)⟩

/-- C10: calling PERMBU.get_samples with num_samples = None reaches the
comparison num_samples > residuals.shape[1] on line 354 and raises
TypeError there (after the residual subtraction and filtering, which this
statement assumes well-shaped), so the branch on lines 360 to 361 that
would default num_samples to the residual width never executes for the
None input; get_prediction_levels forwards the constructor default and
fails the same way. -/
theorem permbu_none_num_samples_type_error (z : ℕ → ℕ → ℚ) (gchoice : ℕ → ℕ)
    (gperm : ℕ → ℕ → ℕ → ℕ) (st : PERMBUState)
    (hr : st.y_insample.rows = st.y_hat_insample.rows)
    (hc : st.y_insample.cols = st.y_hat_insample.cols) :
    PERMBU.getSamples z gchoice gperm st none =
      Except.error "TypeError: NoneType and int are not comparable" ∧
    (st.num_samples = none → ∀ level,
      PERMBU.getPredictionLevels z gchoice gperm st level =
        Except.error "TypeError: NoneType and int are not comparable") := by
  have h1 : PERMBU.getSamples z gchoice gperm st none =
      Except.error "TypeError: NoneType and int are not comparable" := by
    simp [PERMBU.getSamples, usubO, hr, hc]
  refine ⟨h1, fun hns level => ?_⟩
  unfold PERMBU.getPredictionLevels
  rw [hns, h1]

/-- Witness for permbu_none_num_samples_type_error at the concrete instance
whose constructor default num_samples is None. -/
theorem permbu_none_num_samples_type_error_witness :
    PERMBU.getSamples exZ exGchoice exGpermId exPSNone none =
      Except.error "TypeError: NoneType and int are not comparable" ∧
    (exPSNone.num_samples = none → ∀ level,
      PERMBU.getPredictionLevels exZ exGchoice exGpermId exPSNone level =
        Except.error "TypeError: NoneType and int are not comparable") :=
  permbu_none_num_samples_type_error exZ exGchoice exGpermId exPSNone rfl rfl

lemma umul_ok_dims {A B C : UArr} (h : umul A B = Except.ok C) :
    C.rows = A.rows ∧ C.cols = B.cols := by
  unfold umul at h
  split_ifs at h with hc
  injection h with h2
  subst h2
  exact ⟨rfl, rfl⟩

lemma levelStep_dims {gperm : ℕ → ℕ → ℕ → ℕ} {hierLinks : List (List ℕ)}
    {ranks : UArrN} {n l : ℕ} {rec out : UArr3}
    (h : PERMBU.levelStep gperm hierLinks ranks n l rec = Except.ok out) :
    out.d1 = rec.d1 ∧ out.d2 = rec.d2 ∧ out.d3 = rec.d3 := by
  unfold PERMBU.levelStep at h
  dsimp only at h
  split at h
  · exact absurd h (by simp)
  · split at h
    · split at h
      · exact absurd h (by simp)
      · injection h with h3
        subst h3
        exact ⟨rfl, rfl, rfl⟩
    · exact absurd h (by simp)

lemma listFoldlMExc_dims {f : ℕ → UArr3 → Except String UArr3}
    (hf : ∀ a b out, f a b = Except.ok out →
      out.d1 = b.d1 ∧ out.d2 = b.d2 ∧ out.d3 = b.d3) :
    ∀ (l : List ℕ) (acc out : UArr3), listFoldlMExc f l acc = Except.ok out →
      out.d1 = acc.d1 ∧ out.d2 = acc.d2 ∧ out.d3 = acc.d3 := by
  intro l
  induction l with
  | nil =>
    intro acc out h
    unfold listFoldlMExc at h
    injection h with h2
    subst h2
    exact ⟨rfl, rfl, rfl⟩
  | cons a rest ih =>
    intro acc out h
    unfold listFoldlMExc at h
    cases hfa : f a acc with
    | error e =>
      rw [hfa] at h
      exact absurd h (by simp)
    | ok b2 =>
      rw [hfa] at h
      dsimp only at h
      obtain ⟨e1, e2, e3⟩ := ih b2 out h
      obtain ⟨g1, g2, g3⟩ := hf a acc b2 hfa
      exact ⟨e1.trans g1, e2.trans g2, e3.trans g3⟩

lemma getSamplesCore_dims {z : ℕ → ℕ → ℚ} {gperm : ℕ → ℕ → ℕ → ℕ}
    {st : PERMBUState} {n : ℕ} {R : UArr} {out : UArr3}
    (h : PERMBU.getSamplesCore z gperm st n R = Except.ok out) :
    out.d1 = st.yhat.rows ∧ out.d2 = st.yhat.cols ∧ out.d3 = n := by
  unfold PERMBU.getSamplesCore at h
  dsimp only at h
  split_ifs at h with h1 h2
  exact listFoldlMExc_dims (fun a b o ho => levelStep_dims ho) _ _ _ h

/-- C2: whenever get_samples returns (rather than raising), the result has
shape (series_count, horizon, num_samples), the first two dimensions being
those of y_hat. For Bootstrap the first dimension is the row count of SP,
so the claim additionally needs the well-formedness S.rows = y_hat.rows
(the Normality draw and PERMBU base-sample construction force it on their
own). -/
theorem get_samples_shape_invariant :
    (∀ (mvn : ℕ → ℕ → ℕ → ℕ → ℚ) (st : NormalityState) (n : ℕ),
        onOk (Normality.getSamples mvn st n)
          (fun out => out.d1 = st.yhat.rows ∧ out.d2 = st.yhat.cols ∧ out.d3 = n)) ∧
    (∀ (choice : ℕ → ℕ → ℕ) (st : BootstrapState) (n : ℕ),
        st.S.rows = st.yhat.rows →
        onOk (Bootstrap.getSamples choice st n)
          (fun out => out.d1 = st.yhat.rows ∧ out.d2 = st.yhat.cols ∧ out.d3 = n)) ∧
    (∀ (z : ℕ → ℕ → ℚ) (gchoice : ℕ → ℕ) (gperm : ℕ → ℕ → ℕ → ℕ)
        (st : PERMBUState) (n : ℕ),
        onOk (PERMBU.getSamples z gchoice gperm st (some n))
          (fun out => out.d1 = st.yhat.rows ∧ out.d2 = st.yhat.cols ∧ out.d3 = n)) := by
  refine ⟨?_, ?_, ?_⟩
  · intro mvn st n out h
    unfold Normality.getSamples at h
    split_ifs at h with h1 h2
    injection h with h3
    subst h3
    exact ⟨rfl, rfl, rfl⟩
  · intro choice st n hSrows out h
    unfold Bootstrap.getSamples at h
    cases hsub : usubO st.y_insample st.y_hat_insample with
    | error e =>
      rw [hsub] at h
      exact absurd h (by simp)
    | ok R =>
      rw [hsub] at h
      dsimp only at h
      split_ifs at h with hemp
      cases hmul : umul st.S st.P with
      | error e =>
        rw [hmul] at h
        exact absurd h (by simp)
      | ok SP =>
        rw [hmul] at h
        dsimp only at h
        split_ifs at h with hsh
        injection h with h3
        subst h3
        exact ⟨(umul_ok_dims hmul).1.trans hSrows, rfl, rfl⟩
  · intro z gchoice gperm st n out h
    unfold PERMBU.getSamples at h
    cases hsub : usubO st.y_insample st.y_hat_insample with
    | error e =>
      rw [hsub] at h
      exact absurd h (by simp)
    | ok R =>
      rw [hsub] at h
      dsimp only at h
      split_ifs at h with hlt hz
      · exact getSamplesCore_dims h
      · exact getSamplesCore_dims h

/-- Witness for get_samples_shape_invariant at the concrete instances. -/
theorem get_samples_shape_invariant_witness :
    onOk (Normality.getSamples (fun _ _ _ _ => 0) exNS 3)
      (fun out => out.d1 = exNS.yhat.rows ∧ out.d2 = exNS.yhat.cols ∧ out.d3 = 3) ∧
    onOk (Bootstrap.getSamples (fun _ _ => 0) exBSok 2)
      (fun out => out.d1 = exBSok.yhat.rows ∧ out.d2 = exBSok.yhat.cols ∧ out.d3 = 2) ∧
    onOk (PERMBU.getSamples exZ exGchoice exGpermId exPS (some 2))
      (fun out => out.d1 = exPS.yhat.rows ∧ out.d2 = exPS.yhat.cols ∧ out.d3 = 2) :=
  ⟨get_samples_shape_invariant.1 (fun _ _ _ _ => 0) exNS 3,
   get_samples_shape_invariant.2.1 (fun _ _ => 0) exBSok 2 rfl,
   get_samples_shape_invariant.2.2 exZ exGchoice exGpermId exPS 2⟩

lemma getD_mono_of_sorted {s : List ℚ} (hs : s.Sorted (fun x y => x ≤ y)) {a b : ℕ}
    (hab : a ≤ b) (hb : b < s.length) : s.getD a 0 ≤ s.getD b 0 := by
  have ha : a < s.length := Nat.lt_of_le_of_lt hab hb
  rw [List.getD_eq_get s 0 ha, List.getD_eq_get s 0 hb]
  exact hs.rel_get_of_le (Fin.mk_le_mk.mpr hab)

lemma quantileOfSorted_mono {s : List ℚ} (hs : s.Sorted (fun x y => x ≤ y))
    {q q2 : ℚ} (h0 : 0 ≤ q) (hq : q ≤ q2) (h1 : q2 ≤ 1) :
    quantileOfSorted s q ≤ quantileOfSorted s q2 := by
  unfold quantileOfSorted
  by_cases hlen : s.length = 0
  · simp [hlen]
  rw [if_neg hlen, if_neg hlen]
  dsimp only
  have hlpos : 0 < s.length := Nat.pos_of_ne_zero hlen
  set nq : ℚ := ((s.length - 1 : ℕ) : ℚ) with hnq
  have hnq0 : 0 ≤ nq := Nat.cast_nonneg _
  have hpos0 : 0 ≤ q * nq := mul_nonneg h0 hnq0
  have hpos20 : 0 ≤ q2 * nq := mul_nonneg (h0.trans hq) hnq0
  have hposle : q * nq ≤ q2 * nq := mul_le_mul_of_nonneg_right hq hnq0
  have hpos2top : q2 * nq ≤ nq := by
    calc q2 * nq ≤ 1 * nq := mul_le_mul_of_nonneg_right h1 hnq0
    _ = nq := one_mul _
  set i : ℕ := (Int.floor (q * nq)).toNat with hidef
  set i2 : ℕ := (Int.floor (q2 * nq)).toNat with hi2def
  have hfl0 : (0 : ℤ) ≤ Int.floor (q * nq) := Int.floor_nonneg.mpr hpos0
  have hfl20 : (0 : ℤ) ≤ Int.floor (q2 * nq) := Int.floor_nonneg.mpr hpos20
  have hcasti : (i : ℚ) = ((Int.floor (q * nq) : ℤ) : ℚ) := by
    rw [hidef]
    exact_mod_cast congrArg (fun z : ℤ => (z : ℚ)) (Int.toNat_of_nonneg hfl0)
  have hcasti2 : (i2 : ℚ) = ((Int.floor (q2 * nq) : ℤ) : ℚ) := by
    rw [hi2def]
    exact_mod_cast congrArg (fun z : ℤ => (z : ℚ)) (Int.toNat_of_nonneg hfl20)
  have hile : i ≤ i2 := by
    rw [hidef, hi2def]
    exact Int.toNat_le_toNat (Int.floor_mono hposle)
  have hi_le_pos : (i : ℚ) ≤ q * nq := by
    rw [hcasti]
    exact Int.floor_le _
  have hpos_lt : q * nq < (i : ℚ) + 1 := by
    rw [hcasti]
    exact Int.lt_floor_add_one _
  have hi2_le_pos : (i2 : ℚ) ≤ q2 * nq := by
    rw [hcasti2]
    exact Int.floor_le _
  have hi2top : i2 ≤ s.length - 1 := by
    rw [hi2def]
    refine Int.toNat_le.mpr ?_
    have h2 : Int.floor (q2 * nq) ≤ Int.floor nq := Int.floor_mono hpos2top
    rwa [hnq, Int.floor_natCast] at h2
  have hitop : i ≤ s.length - 1 := le_trans hile hi2top
  have hminlt : min (i + 1) (s.length - 1) < s.length :=
    Nat.lt_of_le_of_lt (min_le_right _ _) (Nat.sub_lt hlpos one_pos)
  have hminlt2 : min (i2 + 1) (s.length - 1) < s.length :=
    Nat.lt_of_le_of_lt (min_le_right _ _) (Nat.sub_lt hlpos one_pos)
  have hab : s.getD i 0 ≤ s.getD (min (i + 1) (s.length - 1)) 0 :=
    getD_mono_of_sorted hs (le_min (Nat.le_succ i) hitop) hminlt
  have hab2 : s.getD i2 0 ≤ s.getD (min (i2 + 1) (s.length - 1)) 0 :=
    getD_mono_of_sorted hs (le_min (Nat.le_succ i2) hi2top) hminlt2
  have hg0 : 0 ≤ q * nq - (i : ℚ) := sub_nonneg.mpr hi_le_pos
  have hg1 : q * nq - (i : ℚ) ≤ 1 := by linarith
  have hg20 : 0 ≤ q2 * nq - (i2 : ℚ) := sub_nonneg.mpr hi2_le_pos
  rcases Nat.eq_or_lt_of_le hile with heq | hlt2
  · rw [heq] at hg0 hg1 ⊢
    have hmul := mul_le_mul_of_nonneg_right
      (sub_le_sub_right hposle ((i2 : ℚ)))
      (sub_nonneg.mpr hab2)
    linarith
  · have hQb : s.getD i 0 + (q * nq - (i : ℚ)) *
        (s.getD (min (i + 1) (s.length - 1)) 0 - s.getD i 0) ≤
        s.getD (min (i + 1) (s.length - 1)) 0 := by
      have hp : 0 ≤ (1 - (q * nq - (i : ℚ))) *
          (s.getD (min (i + 1) (s.length - 1)) 0 - s.getD i 0) :=
        mul_nonneg (by linarith) (by linarith)
      nlinarith [hp]
    have hba2 : s.getD (min (i + 1) (s.length - 1)) 0 ≤ s.getD i2 0 := by
      refine getD_mono_of_sorted hs ?_ (Nat.lt_of_le_of_lt hi2top (Nat.sub_lt hlpos one_pos))
      exact le_trans (min_le_left _ _) hlt2
    have ha2Q : s.getD i2 0 ≤ s.getD i2 0 + (q2 * nq - (i2 : ℚ)) *
        (s.getD (min (i2 + 1) (s.length - 1)) 0 - s.getD i2 0) := by
      have hp2 : 0 ≤ (q2 * nq - (i2 : ℚ)) *
          (s.getD (min (i2 + 1) (s.length - 1)) 0 - s.getD i2 0) :=
        mul_nonneg hg20 (by linarith)
      linarith
    linarith

lemma npQuantile_mono {l : List ℚ} {q q2 : ℚ} (h0 : 0 ≤ q) (hq : q ≤ q2)
    (h1 : q2 ≤ 1) : npQuantile l q ≤ npQuantile l q2 :=
  quantileOfSorted_mono (List.sorted_insertionSort _ l) h0 hq h1

/-- C7: for every sampler, given a non-decreasing list of quantile
probabilities in the unit interval, the quantiles array produced by
get_prediction_quantiles is non-decreasing along the quantile dimension at
every fixed series index and horizon step. For Normality this follows from
monotonicity of norm.ppf and nonnegativity of sigmah_rec (an np.sqrt
output); for Bootstrap and PERMBU from monotonicity of np.quantile in the
probability. -/
theorem prediction_quantiles_monotone :
    (∀ (na nb H : ℕ) (sqrtFn ppf : ℚ → ℚ)
        (W : Matrix (BaseIdx na nb) (BaseIdx na nb) ℚ)
        (sigmah : Matrix (BaseIdx na nb) (Fin H) ℚ)
        (S : Matrix (BaseIdx na nb) (Fin nb) ℚ)
        (P : Matrix (Fin nb) (BaseIdx na nb) ℚ)
        (M : BaseIdx na nb → Fin H → ℚ) (qs : List ℚ),
        (∀ x, 0 ≤ sqrtFn x) → Monotone ppf → qs.Sorted (fun x y => x ≤ y) →
        ∀ (i : BaseIdx na nb) (t : Fin H) (a b : ℕ), a ≤ b → b < qs.length →
          NormalityM.quantilesArr (NormalityM.sigmahRec sqrtFn W sigmah S P) ppf M qs i t a ≤
            NormalityM.quantilesArr (NormalityM.sigmahRec sqrtFn W sigmah S P) ppf M qs i t b) ∧
    (∀ (choice : ℕ → ℕ → ℕ) (st : BootstrapState) (qs : List ℚ),
        qs.Sorted (fun x y => x ≤ y) → (∀ x ∈ qs, 0 ≤ x ∧ x ≤ 1) →
        onOk (Bootstrap.getPredictionQuantiles choice st qs)
          (fun out => ∀ i t a b, a ≤ b → b < qs.length →
            out.val i t a ≤ out.val i t b)) ∧
    (∀ (z : ℕ → ℕ → ℚ) (gchoice : ℕ → ℕ) (gperm : ℕ → ℕ → ℕ → ℕ)
        (st : PERMBUState) (qs : List ℚ),
        qs.Sorted (fun x y => x ≤ y) → (∀ x ∈ qs, 0 ≤ x ∧ x ≤ 1) →
        onOk (PERMBU.getPredictionQuantiles z gchoice gperm st qs)
          (fun out => ∀ i t a b, a ≤ b → b < qs.length →
            out.val i t a ≤ out.val i t b)) := by
  refine ⟨?_, ?_, ?_⟩
  · intro na nb H sqrtFn ppf W sigmah S P M qs hsq hppf hsort i t a b hab hb
    unfold NormalityM.quantilesArr
    have hz : ppf (qs.getD a 0) ≤ ppf (qs.getD b 0) :=
      hppf (getD_mono_of_sorted hsort hab hb)
    have hs0 : 0 ≤ NormalityM.sigmahRec sqrtFn W sigmah S P i t := hsq _
    have hm := mul_le_mul_of_nonneg_right hz hs0
    linarith
  · intro choice st qs hsort hq01 out hok
    unfold Bootstrap.getPredictionQuantiles at hok
    cases hgs : Bootstrap.getSamples choice st st.num_samples with
    | error e =>
      rw [hgs] at hok
      exact absurd hok (by simp)
    | ok smp =>
      rw [hgs] at hok
      dsimp only at hok
      injection hok with h3
      subst h3
      intro i t a b hab hb
      have ha : a < qs.length := Nat.lt_of_le_of_lt hab hb
      have hma : qs.getD a 0 ∈ qs := by
        rw [List.getD_eq_get qs 0 ha]
        exact List.get_mem qs a ha
      have hmb : qs.getD b 0 ∈ qs := by
        rw [List.getD_eq_get qs 0 hb]
        exact List.get_mem qs b hb
      exact npQuantile_mono (hq01 _ hma).1 (getD_mono_of_sorted hsort hab hb)
        (hq01 _ hmb).2
  · intro z gchoice gperm st qs hsort hq01 out hok
    unfold PERMBU.getPredictionQuantiles at hok
    cases hgs : PERMBU.getSamples z gchoice gperm st st.num_samples with
    | error e =>
      rw [hgs] at hok
      exact absurd hok (by simp)
    | ok smp =>
      rw [hgs] at hok
      dsimp only at hok
      injection hok with h3
      subst h3
      intro i t a b hab hb
      have ha : a < qs.length := Nat.lt_of_le_of_lt hab hb
      have hma : qs.getD a 0 ∈ qs := by
        rw [List.getD_eq_get qs 0 ha]
        exact List.get_mem qs a ha
      have hmb : qs.getD b 0 ∈ qs := by
        rw [List.getD_eq_get qs 0 hb]
        exact List.get_mem qs b hb
      exact npQuantile_mono (hq01 _ hma).1 (getD_mono_of_sorted hsort hab hb)
        (hq01 _ hmb).2

/-- Witness for prediction_quantiles_monotone with quantile list
[1/4, 3/4] and the concrete instances. -/
theorem prediction_quantiles_monotone_witness :
    NormalityM.quantilesArr (NormalityM.sigmahRec (fun x => |x|) exW exSig exS exP)
        id exYhat [(1 : ℚ)/4, 3/4] (Sum.inl 0) 0 0 ≤
      NormalityM.quantilesArr (NormalityM.sigmahRec (fun x => |x|) exW exSig exS exP)
        id exYhat [(1 : ℚ)/4, 3/4] (Sum.inl 0) 0 1 ∧
    onOk (Bootstrap.getPredictionQuantiles (fun _ _ => 0) exBSok [(1 : ℚ)/4, 3/4])
      (fun out => ∀ i t a b, a ≤ b → b < ([(1 : ℚ)/4, 3/4]).length →
        out.val i t a ≤ out.val i t b) ∧
    onOk (PERMBU.getPredictionQuantiles exZ exGchoice exGpermId exPS [(1 : ℚ)/4, 3/4])
      (fun out => ∀ i t a b, a ≤ b → b < ([(1 : ℚ)/4, 3/4]).length →
        out.val i t a ≤ out.val i t b) := by
  have hsort : ([(1 : ℚ)/4, 3/4]).Sorted (fun x y => x ≤ y) := by
    simp [List.sorted_cons]
    norm_num
  have hq01 : ∀ x ∈ [(1 : ℚ)/4, 3/4], 0 ≤ x ∧ x ≤ 1 := by
    intro x hx
    simp at hx
    rcases hx with h | h <;> subst h <;> constructor <;> norm_num
  refine ⟨?_, ?_, ?_⟩
  · exact prediction_quantiles_monotone.1 1 1 1 (fun x => |x|) id exW exSig exS exP
      exYhat [(1 : ℚ)/4, 3/4] (fun x => abs_nonneg x) monotone_id hsort
      (Sum.inl 0) 0 0 1 (by norm_num) (by norm_num)
  · exact prediction_quantiles_monotone.2.1 (fun _ _ => 0) exBSok [(1 : ℚ)/4, 3/4]
      hsort hq01
  · exact prediction_quantiles_monotone.2.2 exZ exGchoice exGpermId exPS
      [(1 : ℚ)/4, 3/4] hsort hq01

section ConcreteEval

/- Rat.add, Rat.mul, Rat.sub and Rat.inv are irreducible by default, which
blocks elaborator-side evaluation of concrete rational programs; the kernel
ignores reducibility, so making them locally semireducible lets decide
close the concrete-run facts below. -/

attribute [local semireducible] Rat.add Rat.mul Rat.sub Rat.inv

/-- C1 counterexample: on the concrete three-series PERMBU instance (with
identity global shuffles, so the incoherence is forced by the rank
permutations alone), the returned sample tensor violates coherence at
sample 0, horizon 0: the aggregate row does not equal S applied to the
bottom rows of the same sample path. The run itself succeeds (ok false,
not an error), so the claim that every PERMBU sample path is coherent is
false. -/
theorem permbu_incoherent_sample_path :
    ((PERMBU.getSamples exZ exGchoice exGpermId exPS (some 2)).map
      (fun out => decide (out.val 0 0 0 =
        exS3.val 0 0 * out.val 1 0 0 + exS3.val 0 1 * out.val 2 0 0))).toOption
      = some false := by decide

/-- C4: PERMBU.get_samples is not a deterministic function of the
constructor inputs and seed: the residual expansion (line 355) and the
per-parent shuffles (line 400) draw from the unseeded global np.random
generator, so two runs on identically constructed instances (same arrays,
same seed 0, same num_samples, same seeded normal stream) can return
different tensors when the global generator happens to produce different
permutations: with the identity shuffle the top series sample 0 is 6, with
the swapped shuffle it is 9. -/
theorem permbu_global_rng_divergence :
    ((PERMBU.getSamples exZ exGchoice exGpermId exPS (some 2)).map
      (fun out => out.val 0 0 0)).toOption = some 6 ∧
    ((PERMBU.getSamples exZ exGchoice exGpermSwap exPS (some 2)).map
      (fun out => out.val 0 0 0)).toOption = some 9 := by decide

end ConcreteEval

end HFProb
